import Mathlib

set_option maxRecDepth 10000

/-!
Verification of the UI-TARS action-parser pipeline (`actionParser.ts`).

JS strings are embedded as `List Char`; JS numbers as exact rationals `ℚ`.
Where `NaN` can arise (from `Number.parseFloat`) a value is `Option ℚ` with
`none` standing for `NaN`; a possibly-`undefined` slot gets a further outer
`Option`.  All definitions are translated from the source file
`src/packages/ui-tars/action-parser/src/actionParser.ts`.
-/

abbrev LC := List Char

/-- JS whitespace class `\s` (also the set trimmed by `String.prototype.trim`). -/
def jsIsWS (c : Char) : Bool :=
  c == ' ' || c == '\t' || c == '\n' || c == '\x0b' || c == '\x0c' || c == '\r' ||
  c.toNat == 0xA0 || c.toNat == 0x1680 ||
  (decide (0x2000 ≤ c.toNat) && decide (c.toNat ≤ 0x200A)) ||
  c.toNat == 0x2028 || c.toNat == 0x2029 || c.toNat == 0x202F ||
  c.toNat == 0x205F || c.toNat == 0x3000 || c.toNat == 0xFEFF

/-- JS `String.prototype.trimStart`. -/
def jsTrimStart (l : LC) : LC := l.dropWhile jsIsWS

/-- JS `String.prototype.trim`. -/
def jsTrim (l : LC) : LC := ((l.dropWhile jsIsWS).reverse.dropWhile jsIsWS).reverse

/-- Prefix test (as in JS `String.prototype.startsWith`); it matches on the
pattern first, so it reduces whenever the pattern is a literal. -/
def lPrefix : LC → LC → Bool
  | [], _ => true
  | a :: as, l =>
    match l with
    | [] => false
    | b :: bs => a == b && lPrefix as bs

theorem lPrefix_iff_prefix : ∀ {p l : LC}, lPrefix p l = true ↔ p <+: l := by
  intro p
  induction p with
  | nil => intro l; simp [lPrefix]
  | cons a as ih =>
    intro l
    cases l with
    | nil => simp [lPrefix]
    | cons b bs =>
      simp only [lPrefix, Bool.and_eq_true, beq_iff_eq, List.cons_prefix_cons]
      exact and_congr Iff.rfl ih

/-- Substring containment, JS `String.prototype.includes`. -/
def occursIn (pat : LC) : LC → Bool
  | [] => pat.isEmpty
  | c :: rest => lPrefix pat (c :: rest) || occursIn pat rest

/-- JS `Math.round` (half-up, i.e. `⌊x + 1/2⌋`). -/
def jsRound (x : ℚ) : ℚ := ((⌊x + (1 : ℚ)/2⌋ : ℤ) : ℚ)

/-- JS `Math.floor` as a rational-valued function. -/
def jsFloor (x : ℚ) : ℚ := ((⌊x⌋ : ℤ) : ℚ)

/-- JS `Math.ceil` as a rational-valued function. -/
def jsCeil (x : ℚ) : ℚ := ((⌈x⌉ : ℤ) : ℚ)

/-- Source `roundByFactor`: `Math.round(num / factor) * factor`. -/
def roundByFactor (num factor : ℚ) : ℚ := jsRound (num / factor) * factor

/-- Source `floorByFactor`: `Math.floor(num / factor) * factor`. -/
def floorByFactor (num factor : ℚ) : ℚ := jsFloor (num / factor) * factor

/-- Source `ceilByFactor`: `Math.ceil(num / factor) * factor`. -/
def ceilByFactor (num factor : ℚ) : ℚ := jsCeil (num / factor) * factor

/-- Source `smartResizeForV15`.  The numeric parameters default in
the source to the constants `MAX_RATIO`, `IMAGE_FACTOR`, `MIN_PIXELS`,
`MAX_PIXELS_V1_5` imported from `@ui-tars/shared/types`; that module is not
part of the sources, so they stay explicit parameters here, as does
`Math.sqrt` (`sqrtFn`), which is the only non-rational operation. -/
def smartResizeForV15 (height width maxRatio factor minPixels maxPixels : ℚ)
    (sqrtFn : ℚ → ℚ) : Option (ℚ × ℚ) :=
  if max height width / min height width > maxRatio then none
  else
    let wBar0 := max factor (roundByFactor width factor)
    let hBar0 := max factor (roundByFactor height factor)
    if hBar0 * wBar0 > maxPixels then
      let beta := sqrtFn (height * width / maxPixels)
      some (floorByFactor (width / beta) factor, floorByFactor (height / beta) factor)
    else if hBar0 * wBar0 < minPixels then
      let beta := sqrtFn (minPixels / (height * width))
      some (ceilByFactor (width * beta) factor, ceilByFactor (height * beta) factor)
    else some (wBar0, hBar0)

/-- C3: for positive dimensions the smart-resize function fails exactly when
`max(h,w)/min(h,w) > maxRatio`; otherwise it starts from each dimension
rounded to the nearest multiple of `factor` (floored at one `factor`),
shrinks both by `β = sqrt(area/maxPixels)` with floor-to-factor when the
candidate area exceeds `maxPixels`, grows both by `β = sqrt(minPixels/area)`
with ceil-to-factor when it is below `minPixels`, and returns the pair in
`(width, height)` order. -/
theorem smartResizeForV15_spec (height width maxRatio factor minPixels maxPixels : ℚ)
    (sqrtFn : ℚ → ℚ) (hh : 0 < height) (hw : 0 < width) :
    (smartResizeForV15 height width maxRatio factor minPixels maxPixels sqrtFn = none ↔
      maxRatio < max height width / min height width) ∧
    (max height width / min height width ≤ maxRatio →
      smartResizeForV15 height width maxRatio factor minPixels maxPixels sqrtFn =
        (let wBar0 := max factor (roundByFactor width factor)
         let hBar0 := max factor (roundByFactor height factor)
         if maxPixels < hBar0 * wBar0 then
           some (floorByFactor (width / sqrtFn (height * width / maxPixels)) factor,
                 floorByFactor (height / sqrtFn (height * width / maxPixels)) factor)
         else if hBar0 * wBar0 < minPixels then
           some (ceilByFactor (width * sqrtFn (minPixels / (height * width))) factor,
                 ceilByFactor (height * sqrtFn (minPixels / (height * width))) factor)
         else some (max factor (roundByFactor width factor),
                    max factor (roundByFactor height factor)))) := by
  constructor
  · unfold smartResizeForV15
    split
    · rename_i hcond
      simp only [true_iff]
      exact hcond
    · rename_i hcond
      constructor
      · intro habs
        exfalso
        revert habs
        dsimp only
        split
        · simp
        · split <;> simp
      · intro hgt
        exact absurd hgt hcond
  · intro hle
    unfold smartResizeForV15
    rw [if_neg (by exact not_lt.mpr hle)]

/-- Concrete instance of `smartResizeForV15_spec`, discharging its
hypotheses at `height = 3`, `width = 4`. -/
theorem smartResizeForV15_spec_witness :
    smartResizeForV15 3 4 2 2 1 100 (fun _ => 1) = none ↔
      (2 : ℚ) < max 3 4 / min 3 4 :=
  (smartResizeForV15_spec 3 4 2 2 1 100 (fun _ => 1) (by norm_num) (by norm_num)).1

/-- Split on a single character (JS `String.prototype.split(',')` keeps empty
segments). -/
def splitCommaAux (acc : LC) : LC → List LC
  | [] => [acc.reverse]
  | ',' :: rest => acc.reverse :: splitCommaAux [] rest
  | c :: rest => splitCommaAux (c :: acc) rest

/-- JS `str.split(',')`. -/
def splitComma (l : LC) : List LC := splitCommaAux [] l

mutual

/-- JS `str.split(/\n+/)`: building the current segment. -/
def splitNLAux (acc : LC) : LC → List LC
  | [] => [acc.reverse]
  | '\n' :: rest => acc.reverse :: splitNLRun rest
  | c :: rest => splitNLAux (c :: acc) rest

/-- JS `str.split(/\n+/)`: consuming a run of consecutive newlines. -/
def splitNLRun : LC → List LC
  | '\n' :: rest => splitNLRun rest
  | [] => [[]]
  | c :: rest => splitNLAux [c] rest

end

/-- JS `str.split(/\n+/)`. -/
def splitNL (l : LC) : List LC := splitNLAux [] l

/-- Numeric value of a list of ASCII digits. -/
def digitsVal (l : LC) : ℕ := l.foldl (fun a c => a * 10 + (c.toNat - '0'.toNat)) 0

/-- Exponent suffix accepted by `Number.parseFloat` after `e`/`E`: an
optional sign and at least one digit, otherwise the exponent is ignored. -/
def expVal (r : LC) : ℤ :=
  let sr : ℤ × LC := match r with
    | '-' :: t => (-1, t)
    | '+' :: t => (1, t)
    | _ => (1, r)
  let ed := sr.2.takeWhile Char.isDigit
  if ed.isEmpty then 0 else sr.1 * (digitsVal ed : ℤ)

/-- JS `Number.parseFloat`: longest numeric prefix after leading whitespace;
`none` is `NaN`.  (The `Infinity` spellings are not modelled; no input in
this development produces them.) -/
def parseFloatStr (l0 : LC) : Option ℚ :=
  let l1 := jsTrimStart l0
  let sl : ℚ × LC := match l1 with
    | '-' :: r => (-1, r)
    | '+' :: r => (1, r)
    | _ => (1, l1)
  let ip := sl.2.takeWhile Char.isDigit
  let l3 := sl.2.drop ip.length
  let fl : LC × LC := match l3 with
    | '.' :: r => (r.takeWhile Char.isDigit, r.drop (r.takeWhile Char.isDigit).length)
    | _ => ([], l3)
  if ip.isEmpty && fl.1.isEmpty then none
  else
    let mant : ℚ := (digitsVal ip : ℚ) + (digitsVal fl.1 : ℚ) / (10 : ℚ) ^ fl.1.length
    let expo : ℤ := match fl.2 with
      | 'e' :: r => expVal r
      | 'E' :: r => expVal r
      | _ => 0
    some (sl.1 * mant * (10 : ℚ) ^ expo)

/-- Mapping with the element index, as JS `Array.prototype.map((x, idx) => …)`. -/
def mapIdxFrom (f : ℕ → α → β) : ℕ → List α → List β
  | _, [] => []
  | i, a :: rest => f i a :: mapIdxFrom f (i + 1) rest

/-- The characters of the marker `Action:`. -/
def mkColon : LC := ['A', 'c', 't', 'i', 'o', 'n', ':']

/-- The characters of the marker `Action：` (fullwidth colon U+FF1A). -/
def mkFColon : LC := ['A', 'c', 't', 'i', 'o', 'n', '：']

/-- When `l` starts with one of the two `Action` markers (the alternatives of
the regex `/Action[:：]/`), the remainder after the marker. -/
def markerSplit (l : LC) : Option LC :=
  if lPrefix mkColon l then some (l.drop 7)
  else if lPrefix mkFColon l then some (l.drop 7)
  else none

/-- The suffix of `l` after the last occurrence of either `Action` marker
(`none` when no occurrence exists): positions are scanned right to left. -/
def afterLastAM : LC → Option LC
  | [] => none
  | c :: rest =>
    match afterLastAM rest with
    | some t => some t
    | none => markerSplit (c :: rest)

/-- Line 146 of the source:
`['Action:', 'Action：'].some((keyword) => text.includes(keyword))`. -/
def hasActionMarker (l : LC) : Bool := occursIn mkColon l || occursIn mkFColon l

/-- JS `text.split(/Action[:：]/)` (fuelled; each step consumes at least one
character, so `l.length + 1` fuel always suffices). -/
def splitAMAux : ℕ → LC → LC → List LC
  | 0, acc, l => [acc.reverse ++ l]
  | fuel + 1, acc, l =>
    match markerSplit l with
    | some r => acc.reverse :: splitAMAux fuel [] r
    | none =>
      match l with
      | [] => [acc.reverse]
      | c :: rest => splitAMAux fuel (c :: acc) rest

/-- JS `text.split(/Action[:：]/)`. -/
def splitAM (l : LC) : List LC := splitAMAux (l.length + 1) [] l

/-- One-pass global removal of the literal tags `t1` and `t2` (the regex
`/t1|t2/g` with empty replacement); matching is leftmost, non-overlapping,
and continues after each removed occurrence. -/
def stripTags2 (t1 t2 : LC) : ℕ → LC → LC
  | 0, l => l
  | fuel + 1, l =>
    if lPrefix t1 l ∧ t1 ≠ [] then stripTags2 t1 t2 fuel (l.drop t1.length)
    else if lPrefix t2 l ∧ t2 ≠ [] then stripTags2 t1 t2 fuel (l.drop t2.length)
    else
      match l with
      | [] => []
      | c :: rest => c :: stripTags2 t1 t2 fuel rest

/-- Global replacement of the literal `pat` by `rep`
(JS `str.replace(/pat/g, rep)` for a literal pattern). -/
def replLit (pat rep : LC) : ℕ → LC → LC
  | 0, l => l
  | fuel + 1, l =>
    if lPrefix pat l ∧ pat ≠ [] then rep ++ replLit pat rep fuel (l.drop pat.length)
    else
      match l with
      | [] => []
      | c :: rest => c :: replLit pat rep fuel rest

/-- Line 275 of the source: `replace(/(?<!start_|end_)point=/g, 'start_box=')`.
`prev` holds the already-scanned characters in reverse for the negative
lookbehind, which inspects the original string. -/
def replPointBare : ℕ → LC → LC → LC
  | 0, _, l => l
  | fuel + 1, prev, l =>
    if lPrefix ("point=".toList) l ∧
        ¬ lPrefix ("start_".toList.reverse) prev ∧
        ¬ lPrefix ("end_".toList.reverse) prev then
      "start_box=".toList ++ replPointBare fuel ("point=".toList.reverse ++ prev) (l.drop 6)
    else
      match l with
      | [] => []
      | c :: rest => c :: replPointBare fuel (c :: prev) rest

/-- The character class `\w` of JS regexes. -/
def isWordChar (c : Char) : Bool := c.isAlphanum || c == '_'

/-- The anchored pattern `/^(\w+)\((.*)$/` followed by `\)$` — i.e.
`/^(\w+)\((.*)\)$/` of line 280: a non-empty run of word characters, an
opening parenthesis, a newline-free middle, and a closing parenthesis as the
very last character.  Returns the function name and the argument substring. -/
def grammarMatch (l : LC) : Option (LC × LC) :=
  let name := l.takeWhile isWordChar
  let r := l.drop name.length
  match r with
  | '(' :: rest =>
    if name ≠ [] ∧ rest.getLast? = some ')' ∧ rest.dropLast.all (fun c => ¬ c = '\n') then
      some (name, rest.dropLast)
    else none
  | _ => none

/-- A single quoted unit `'[^']*'` starting after an opening quote; fails
when no closing quote exists. -/
def quotedRun (rest : LC) : Option (LC × LC) :=
  let inner := rest.takeWhile (fun c => ¬ c = '\'')
  if inner.length = rest.length then none
  else some ('\'' :: inner ++ ['\''], rest.drop (inner.length + 1))

/-- One unit of the pattern `([^,']|'[^']*')+` from line 289. -/
def unitM : LC → Option (LC × LC)
  | [] => none
  | ',' :: _ => none
  | '\'' :: rest => quotedRun rest
  | c :: rest => some ([c], rest)

/-- A maximal non-empty run of units (one match of the line-289 pattern). -/
def unitsM : ℕ → LC → Option (LC × LC)
  | 0, _ => none
  | fuel + 1, l =>
    match unitM l with
    | none => none
    | some (u, r) =>
      match unitsM fuel r with
      | some (m, r') => some (u ++ m, r')
      | none => some (u, r)

/-- JS `argsStr.match(/([^,']|'[^']*')+/g)`: all leftmost non-overlapping
matches, scanning forward one character when no match starts at the current
position. -/
def gMatches : ℕ → LC → List LC
  | 0, _ => []
  | fuel + 1, [] => []
  | fuel + 1, c :: rest =>
    match unitsM (c :: rest).length (c :: rest) with
    | some (m, r) => m :: gMatches fuel r
    | none => gMatches fuel rest

/-- Line 297: `.replace(/^['"]|['"]$/g, '')` — strip one leading and one
trailing single or double quote. -/
def stripQuotes (l : LC) : LC :=
  let l1 := match l with
    | c :: r => if c = '\'' ∨ c = '"' then r else l
    | [] => []
  match l1.getLast? with
  | some c => if c = '\'' ∨ c = '"' then l1.dropLast else l1
  | none => l1

/-- Split an argument group on its first `=` (line 292); `none` when the
group has no `=`.  Key and value are trimmed and the value loses one layer
of surrounding quotes. -/
def pairKV (m : LC) : Option (LC × LC) :=
  let k := m.takeWhile (fun c => ¬ c = '=')
  if k.length = m.length then none
  else some (jsTrim k, stripQuotes (jsTrim (m.drop (k.length + 1))))

/-- JS `replace(/\s+/g, ',')`: collapse every whitespace run to one comma.
The flag records whether the previous character was part of a run. -/
def wsToComma : Bool → LC → LC
  | _, [] => []
  | inWs, c :: rest =>
    if jsIsWS c then
      if inWs then wsToComma true rest else ',' :: wsToComma true rest
    else c :: wsToComma false rest

/-- Lines 300–307: rewrite an inline `<bbox>…</bbox>` or `<point>…</point>`
value to a parenthesised comma list. -/
def tagTransform (v : LC) : LC :=
  let v1 :=
    if occursIn ("<bbox>".toList) v then
      '(' :: wsToComma false (stripTags2 ("<bbox>".toList) ("</bbox>".toList) (v.length + 1) v) ++ [')']
    else v
  if occursIn ("<point>".toList) v1 then
    '(' :: wsToComma false (stripTags2 ("<point>".toList) ("</point>".toList) (v1.length + 1) v1) ++ [')']
  else v1

/-- Assignment to a JS object keyed by strings: overwrite in place when the
key exists, else append (insertion order is preserved). -/
def objInsert (m : List (LC × α)) (k : LC) (v : α) : List (LC × α) :=
  if m.any (fun p => p.1 = k) then m.map (fun p => if p.1 = k then (k, v) else p)
  else m ++ [(k, v)]

/-- ASCII lower-casing as performed by `String.prototype.toLowerCase` on the
characters relevant here (non-ASCII case mappings are not modelled). -/
def jsToLowerChar (c : Char) : Char :=
  if 'A' ≤ c ∧ c ≤ 'Z' then Char.ofNat (c.toNat + 32) else c

/-- The fixed vocabulary of line 324, in source order. -/
def commonActions : List LC :=
  ["click".toList, "type".toList, "drag".toList, "scroll".toList,
   "wait".toList, "hover".toList, "finished".toList, "call_user".toList]

/-- The number token `\d+(?:\.\d+)?` (greedy) at the head of `l`. -/
def numToken (l : LC) : Option (LC × LC) :=
  let d := l.takeWhile Char.isDigit
  if d.isEmpty then none
  else
    let r := l.drop d.length
    match r with
    | '.' :: r2 =>
      let d2 := r2.takeWhile Char.isDigit
      if d2.isEmpty then some (d, r) else some (d ++ '.' :: d2, r2.drop d2.length)
    | _ => some (d, r)

/-- The remainder of the line-330 coordinate pattern after its opening
bracket: `\s*(\d+(?:\.\d+)?)\s*,\s*(\d+(?:\.\d+)?)` then a closing bracket
(the `\s*` runs are forced maximal because what follows each is never
whitespace). -/
def coordAfterOpen (u : LC) : Option (LC × LC) :=
  match numToken (u.dropWhile jsIsWS) with
  | none => none
  | some (n1, r1) =>
    match r1.dropWhile jsIsWS with
    | ',' :: r2 =>
      match numToken (r2.dropWhile jsIsWS) with
      | none => none
      | some (n2, r3) =>
        match r3 with
        | c :: _ => if c = ')' ∨ c = ']' ∨ c = '\x7d' then some (n1, n2) else none
        | [] => none
    | _ => none

/-- Leftmost match of `/[([{]\s*(\d+(?:\.\d+)?)\s*,\s*(\d+(?:\.\d+)?)[\])}]/`,
returning the two captured number strings. -/
def coordScan : LC → Option (LC × LC)
  | [] => none
  | c :: rest =>
    match (if c = '(' ∨ c = '[' ∨ c = '\x7b' then coordAfterOpen rest else none) with
    | some p => some p
    | none => coordScan rest

/-- Case-insensitive literal prefix (the `i` flag restricted to ASCII). -/
def ciPrefixOf (pat l : LC) : Bool := lPrefix pat (l.map jsToLowerChar)

/-- Characters admitted by the capture class `[^'"}]` of the first
text-extraction pattern (line 339). -/
def allowedA (c : Char) : Bool := ¬ (c = '\'' ∨ c = '"' ∨ c = '\x7d')

/-- Characters admitted by the capture class `[^'"]` of the second
text-extraction pattern (line 340). -/
def allowedB (c : Char) : Bool := ¬ (c = '\'' ∨ c = '"')

/-- The tail `\s*['"]?([^'"}]+)` of the first text pattern after `[:=]`,
with the regex backtracking resolved: try the maximal whitespace run first
(with and without an opening quote); if the capture would be empty, give one
whitespace character back, which then itself becomes the capture's head. -/
def capA (v : LC) : Option LC :=
  let w := (v.takeWhile jsIsWS).length
  let u := v.drop w
  let fb : Option LC := if 1 ≤ w then some ((v.drop (w - 1)).takeWhile allowedA) else none
  match u with
  | [] => fb
  | q :: rest =>
    if q = '\'' ∨ q = '"' then
      (let c := rest.takeWhile allowedA
       if c.isEmpty then fb else some c)
    else if q = '\x7d' then fb
    else some (u.takeWhile allowedA)

/-- The tail `\s+['"]?([^'"]+)` of the second text pattern after `type`,
with the same backtracking resolution; at least one whitespace character is
required, and giving one back needs a run of length two or more. -/
def capB (v : LC) : Option LC :=
  let w := (v.takeWhile jsIsWS).length
  if w = 0 then none
  else
    let u := v.drop w
    let fb : Option LC := if 2 ≤ w then some ((v.drop (w - 1)).takeWhile allowedB) else none
    match u with
    | [] => fb
    | q :: rest =>
      if q = '\'' ∨ q = '"' then
        (let c := rest.takeWhile allowedB
         if c.isEmpty then fb else some c)
      else some (u.takeWhile allowedB)

/-- After one of the labels `text`/`value`/`input`: `\s*[:=]` then the
capture tail (the whitespace run is forced maximal because `:`/`=` is not
whitespace). -/
def afterLabelA (v : LC) : Option LC :=
  match v.dropWhile jsIsWS with
  | ':' :: r => capA r
  | '=' :: r => capA r
  | _ => none

/-- One attempt of pattern `/(?:text|value|input)\s*[:=]\s*['"]?([^'"}]+)['"]?/i`
at the current position (the three labels start with distinct letters, so at
most one alternative can match here). -/
def tryLabelA (l : LC) : Option LC :=
  if ciPrefixOf ("text".toList) l then afterLabelA (l.drop 4)
  else if ciPrefixOf ("value".toList) l then afterLabelA (l.drop 5)
  else if ciPrefixOf ("input".toList) l then afterLabelA (l.drop 5)
  else none

/-- Leftmost match of the first text-extraction pattern. -/
def textMatchA : LC → Option LC
  | [] => none
  | c :: rest =>
    match tryLabelA (c :: rest) with
    | some cap => some cap
    | none => textMatchA rest

/-- One attempt of pattern `/type\s+['"]?([^'"]+)['"]?/i` at the current
position. -/
def tryLabelB (l : LC) : Option LC :=
  if ciPrefixOf ("type".toList) l then capB (l.drop 4) else none

/-- Leftmost match of the second text-extraction pattern. -/
def textMatchB : LC → Option LC
  | [] => none
  | c :: rest =>
    match tryLabelB (c :: rest) with
    | some cap => some cap
    | none => textMatchB rest

/-- Line 339–340: the first pattern, else the second. -/
def textMatchAll (s : LC) : Option LC :=
  match textMatchA s with
  | some cap => some cap
  | none => textMatchB s

/-- The preprocessing of `parseAction` (lines 268–277): trim, strip the
`<|box_start|>`/`<|box_end|>` markers, normalize `point=`/`start_point=`/
`end_point=` spellings to box spellings. -/
def preprocessTok (s0 : LC) : LC :=
  let s1 := jsTrim s0
  let s2 := stripTags2 ("<|box_start|>".toList) ("<|box_end|>".toList) (s1.length + 1) s1
  let s3 := replPointBare (s2.length + 1) [] s2
  let s4 := replLit ("start_point=".toList) ("start_box=".toList) (s3.length + 1) s3
  replLit ("end_point=".toList) ("end_box=".toList) (s4.length + 1) s4

/-- Lines 287–312: the keyword-argument map built from the argument
substring of a grammar match. -/
def argKwargs (argsStr : LC) : List (LC × LC) :=
  if jsTrim argsStr = [] then []
  else
    (gMatches (argsStr.length + 1) argsStr).foldl
      (fun m p =>
        match pairKV p with
        | none => m
        | some (k, v) => objInsert m k (tagTransform v)) []

/-- Source `parseAction` (lines 266–357): preprocessing, the function-call grammar
path, then the heuristic fallback; `none` is the JS `null`. -/
def parseActionE (s0 : LC) : Option (LC × List (LC × LC)) :=
  let s := preprocessTok s0
  match grammarMatch s with
  | some (name, argsStr) => some (name, argKwargs argsStr)
  | none =>
    let lowerStr := s.map jsToLowerChar
    match commonActions.find? (fun w => occursIn w lowerStr) with
    | none => none
    | some act =>
      let kw0 : List (LC × LC) :=
        match coordScan s with
        | some (n1, n2) => [("start_box".toList, '(' :: (n1 ++ ',' :: n2) ++ [')'])]
        | none => []
      let kw :=
        if act = "type".toList then
          match textMatchAll s with
          | some cap => objInsert kw0 ("content".toList) (jsTrim cap)
          | none => kw0
        else kw0
      some (act, kw)

/-- The lookahead `(?=\s*Action[:：]|$)` of the bc thought patterns. -/
def lookAheadActionOrEnd (u : LC) : Bool :=
  (markerSplit (u.dropWhile jsIsWS)).isSome || u.isEmpty

/-- Lazy capture `([\s\S]+?)` before a lookahead: the shortest non-empty
prefix after which `look` holds. -/
def lazyCapPlus (look : LC → Bool) : LC → Option LC
  | [] => none
  | c :: rest =>
    if look rest then some [c]
    else (lazyCapPlus look rest).map (fun t => c :: t)

/-- Lazy capture `(.+?)` (dot excludes newline) before a lookahead. -/
def lazyDotCapPlus (look : LC → Bool) : LC → Option LC
  | [] => none
  | c :: rest =>
    if c = '\n' then none
    else if look rest then some [c]
    else (lazyDotCapPlus look rest).map (fun t => c :: t)

/-- Lazy capture `(.*?)` before `\s*post`: the shortest newline-free prefix
after which a whitespace run followed by `post` begins (the run is forced
maximal because `post` starts with a non-whitespace character). -/
def lazyDotCap (post : LC) : LC → Option LC
  | [] => if lPrefix post [] then some [] else none
  | c :: rest =>
    if lPrefix post ((c :: rest).dropWhile jsIsWS) then some []
    else if c = '\n' then none
    else (lazyDotCap post rest).map (fun t => c :: t)

/-- Leftmost-match driver: at each position, try the literal `pre` followed
by the inner matcher; on failure advance one character, as a regex engine
does. -/
def scanPre (pre : LC) (inner : LC → Option α) : ℕ → LC → Option α
  | 0, _ => none
  | fuel + 1, l =>
    match (if lPrefix pre l then inner (l.drop pre.length) else none) with
    | some x => some x
    | none =>
      match l with
      | [] => none
      | _ :: rest => scanPre pre inner fuel rest

/-- Line 122: `/Thought: ([\s\S]+?)(?=\s*Action[:：]|$)/`. -/
def matchThoughtBc (t : LC) : Option LC :=
  scanPre ("Thought: ".toList) (lazyCapPlus lookAheadActionOrEnd) (t.length + 1) t

/-- Line 138: `/Action_Summary: (.+?)(?=\s*Action[:：]|$)/`. -/
def matchSummaryBc (t : LC) : Option LC :=
  scanPre ("Action_Summary: ".toList) (lazyDotCapPlus lookAheadActionOrEnd) (t.length + 1) t

/-- The part of the line-130 reflection pattern after `Reflection: `: grow
the first lazy group `([\s\S]+?)` one character at a time; whenever the
literal `Action_Summary: ` follows, try the second lazy group, else keep
growing. -/
def reflInner : ℕ → LC → LC → Option (LC × LC)
  | 0, _, _ => none
  | fuel + 1, acc, l =>
    match l with
    | [] => none
    | c :: rest =>
      match (if lPrefix ("Action_Summary: ".toList) rest then
               (lazyCapPlus lookAheadActionOrEnd (rest.drop 16)).map
                 (fun g2 => ((c :: acc).reverse, g2))
             else none) with
      | some p => some p
      | none => reflInner fuel (c :: acc) rest

/-- Line 130:
`/Reflection: ([\s\S]+?)Action_Summary: ([\s\S]+?)(?=\s*Action[:：]|$)/`. -/
def reflMatchBc (t : LC) : Option (LC × LC) :=
  scanPre ("Reflection: ".toList) (fun r => reflInner (r.length + 1) [] r) (t.length + 1) t

/-- Line 155: `/<Thought>\s*(.*?)\s*<\/Thought>/`. -/
def matchThoughtO1 (t : LC) : Option LC :=
  scanPre ("<Thought>".toList)
    (fun r => lazyDotCap ("</Thought>".toList) (r.dropWhile jsIsWS)) (t.length + 1) t

/-- Line 156: `/\nAction_Summary:\s*(.*?)\s*Action:/`. -/
def matchSummaryO1 (t : LC) : Option LC :=
  scanPre ("\nAction_Summary:".toList)
    (fun r => lazyDotCap ("Action:".toList) (r.dropWhile jsIsWS)) (t.length + 1) t

/-- Line 159: `/\nAction:\s*(.*?)\s*<\/Output>/`. -/
def matchActionO1 (t : LC) : Option LC :=
  scanPre ("\nAction:".toList)
    (fun r => lazyDotCap ("</Output>".toList) (r.dropWhile jsIsWS)) (t.length + 1) t

/-- JS template interpolation of a nullable string: `null` prints as the
four characters `null`. -/
def jsNullStr : Option LC → LC
  | some s => s
  | none => "null".toList

/-- Line 167: the composed o1 thought
`` `${thoughtContent}\n<Action_Summary>\n${actionSummaryContent}` ``. -/
def o1ThoughtStr (t : LC) : LC :=
  jsNullStr (matchThoughtO1 t) ++ "\n<Action_Summary>\n".toList ++ jsNullStr (matchSummaryO1 t)

/-- Screen dimensions in pixels. -/
structure ScreenCtx where
  width : ℚ
  height : ℚ
deriving DecidableEq

/-- The two textual dialects of the parser. -/
inductive Mode
  | bc
  | o1
deriving DecidableEq

/-- The model coordinate conventions distinguished by the parser. -/
inductive ModelVer
  | v1_0
  | v1_5
deriving DecidableEq

/-- Parameters of `smartResizeForV15` that the source imports as the
constants `MAX_RATIO`, `IMAGE_FACTOR`, `MIN_PIXELS`, `MAX_PIXELS_V1_5`
(module `@ui-tars/shared/types`, not among the sources), plus `Math.sqrt`. -/
structure ResizeCfg where
  maxRatio : ℚ
  imageFactor : ℚ
  minPixels : ℚ
  maxPixels : ℚ
  sqrtFn : ℚ → ℚ

/-- A value stored in `action_inputs`: a verbatim string, the
`JSON.stringify`d normalized number tuple of a box key, or the raw
coordinate array of `start_coords`/`end_coords` (`none` entries are `NaN`). -/
inductive InputVal
  | vstr (s : LC)
  | vnums (l : List (Option ℚ))
  | vcoords (l : List (Option ℚ))
deriving DecidableEq

/-- One parsed action as pushed on line 251. -/
structure ParsedActionR where
  reflection : Option LC
  thought : LC
  action_type : LC
  action_inputs : List (LC × InputVal)
deriving DecidableEq, Inhabited

/-- The parameters of `parseActionVlm` after the orchestrator resolved
them, together with the modelled resize constants. -/
structure Env where
  factors : ℚ × ℚ
  mode : Mode
  screenContext : Option ScreenCtx
  scaleFactor : Option ℚ
  modelVer : ModelVer
  cfg : ResizeCfg

/-- Lines 106–116: the smart-resize factors are resolved once per call,
only for `V1_5` with a screen context whose dimensions are truthy. -/
def resolveSRF (env : Env) : Option (ℚ × ℚ) :=
  match env.modelVer, env.screenContext with
  | .v1_5, some sc =>
    if sc.height ≠ 0 ∧ sc.width ≠ 0 then
      smartResizeForV15 sc.height sc.width env.cfg.maxRatio env.cfg.imageFactor
        env.cfg.minPixels env.cfg.maxPixels env.cfg.sqrtFn
    else none
  | _, _ => none

/-- Index-parity selection of the normalization denominator (line 200). -/
def pickFac (p : ℚ × ℚ) (i : ℕ) : ℚ := if i % 2 = 0 then p.1 else p.2

/-- Lines 199–205: parse each fragment as a float and divide by the
denominator for its index parity; the smart-resize denominators apply only
for `V1_5` when they were resolved. -/
def normNums (mv : ModelVer) (srf : Option (ℚ × ℚ)) (factors : ℚ × ℚ)
    (frags : List LC) : List (Option ℚ) :=
  match mv, srf with
  | .v1_5, some p => mapIdxFrom (fun i s => (parseFloatStr s).map (fun q => q / pickFac p i)) 0 frags
  | _, _ => mapIdxFrom (fun i s => (parseFloatStr s).map (fun q => q / pickFac factors i)) 0 frags

/-- One absolute coordinate of lines 227–236:
`Math.round(((a + c) / 2) * dim * fac) / fac * scale`, propagating `NaN`. -/
def coordCalc (a c : Option ℚ) (dim fac scale : ℚ) : Option ℚ :=
  match a, c with
  | some x, some y => some (jsRound ((x + y) / 2 * dim * fac) / fac * scale)
  | _, _ => none

/-- Lines 222–238: destructure `[x1, y1, x2 = x1, y2 = y1]`, keep the pair
only when all four slots are defined (`lodash.isnumber`, which also accepts
`NaN`), else the empty array. -/
def computeCoords (fn : List (Option ℚ)) (sc : ScreenCtx) (factors : ℚ × ℚ)
    (scale : Option ℚ) : List (Option ℚ) :=
  let x1 := fn[0]?
  let y1 := fn[1]?
  let x2 := match fn[2]? with | some v => some v | none => x1
  let y2 := match fn[3]? with | some v => some v | none => y1
  match x1, y1, x2, y2 with
  | some a, some b, some c, some d =>
    [coordCalc a c sc.width factors.1 (scale.getD 1),
     coordCalc b d sc.height factors.2 (scale.getD 1)]
  | _, _, _, _ => []

/-- Lines 186–248: processing of one keyword argument into
`action_inputs`. -/
def procArg (env : Env) (srf : Option (ℚ × ℚ)) (inputs : List (LC × InputVal))
    (kv : LC × LC) : List (LC × InputVal) :=
  if kv.2 = [] then inputs
  else
    let k := kv.1
    let trimmed := jsTrim kv.2
    if occursIn ("start_box".toList) k || occursIn ("end_box".toList) k then
      let frags := (splitComma (trimmed.filter
        (fun c => ¬ (c = '(' ∨ c = ')' ∨ c = '[' ∨ c = ']')))).filter (fun f => ¬ f = [])
      let fn0 := normNums env.modelVer srf env.factors frags
      let fn := if fn0.length = 2 then fn0 ++ fn0 else fn0
      let inputs1 := objInsert inputs (jsTrim k) (.vnums fn)
      match env.screenContext with
      | some sc =>
        if sc.width ≠ 0 ∧ sc.height ≠ 0 then
          let boxKey := if occursIn ("start_box".toList) k then "start_coords".toList
            else "end_coords".toList
          objInsert inputs1 boxKey (.vcoords (computeCoords fn sc env.factors env.scaleFactor))
        else inputs1
      | none => inputs1
    else objInsert inputs (jsTrim k) (.vstr trimmed)

/-- Line 177: the call `rawStr.replace` of the pattern `/\\n/g` with the
raw replacement text backslash-n — the replacement
text equals the matched text, so the scan reproduces its input. -/
def replEscN : LC → LC
  | [] => []
  | '\\' :: 'n' :: rest => '\\' :: 'n' :: replEscN rest
  | c :: rest => c :: replEscN rest

/-- JS `thought || ''` on a nullable string. -/
def thoughtOrEmpty : Option LC → LC
  | some s => s
  | none => []

/-- Lines 175–257: the body of the per-token loop. -/
def perToken (env : Env) (srf : Option (ℚ × ℚ)) (refl : Option LC)
    (thought : Option LC) (rawStr : LC) : ParsedActionR :=
  let tok := jsTrimStart (replEscN rawStr)
  match parseActionE tok with
  | none =>
    { reflection := refl, thought := thoughtOrEmpty thought,
      action_type := [], action_inputs := [] }
  | some (fname, kwargs) =>
    { reflection := refl, thought := thoughtOrEmpty thought,
      action_type := fname, action_inputs := kwargs.foldl (procArg env srf) [] }

/-- Lines 120–144: reflection and thought of the `bc` dialect. -/
def bcReflThought (t : LC) : Option LC × Option LC :=
  if occursIn ("Thought:".toList) t then
    (none, (matchThoughtBc t).map jsTrim)
  else if lPrefix ("Reflection:".toList) t then
    match reflMatchBc t with
    | some (r, th) => (some (jsTrim r), some (jsTrim th))
    | none => (none, none)
  else if lPrefix ("Action_Summary:".toList) t then
    (none, (matchSummaryBc t).map jsTrim)
  else (none, none)

/-- Lines 146–152 and 168: the action-string of a (trimmed) prediction. -/
def actionStrOf (t : LC) : Mode → LC
  | .bc => if hasActionMarker t then (splitAM t).getLastD [] else t
  | .o1 =>
    match matchActionO1 t with
    | some s => s
    | none => []

/-- Source `parseActionVlm` (lines 91–260). -/
def parseActionVlm (text : LC) (env : Env) : List ParsedActionR :=
  let srf := resolveSRF env
  let t := jsTrim text
  let rt : Option LC × Option LC :=
    match env.mode with
    | .bc => bcReflThought t
    | .o1 => (none, some (o1ThoughtStr t))
  let actionStr := actionStrOf t env.mode
  let allActions := (splitNL actionStr).filter (fun a => ¬ jsTrim a = [])
  allActions.map (perToken env srf rt.1 rt.2)

/-- The `factor` argument of the orchestrator: a scalar broadcasts to a
pair (line 79). -/
inductive FactorArg
  | scalar (f : ℚ)
  | pair (p : ℚ × ℚ)

/-- The parameter object of `actionParser` (lines 60–70). -/
structure ActionParserParams where
  prediction : LC
  factor : FactorArg
  screenContext : Option ScreenCtx
  scaleFactor : Option ℚ
  mode : Option Mode
  modelVer : Option ModelVer

/-- Source `actionParser` (lines 60–89): resolve the factor pair and the defaulted
mode/model version, then run `parseActionVlm`.  The resize constants `cfg`
model the imported module-level constants, which are fixed across calls. -/
def actionParser (cfg : ResizeCfg) (p : ActionParserParams) : List ParsedActionR :=
  parseActionVlm p.prediction
    { factors := match p.factor with | .scalar f => (f, f) | .pair q => q
      mode := p.mode.getD .bc
      screenContext := p.screenContext
      scaleFactor := p.scaleFactor
      modelVer := p.modelVer.getD .v1_0
      cfg := cfg }

/-- The tokens of line 172: the action-string split on newline runs, with
whitespace-only segments discarded. -/
def allActionsOf (text : LC) (env : Env) : List LC :=
  (splitNL (actionStrOf (jsTrim text) env.mode)).filter (fun a => ¬ jsTrim a = [])

/-- The reflection/thought pair resolved for a prediction. -/
def rtOf (t : LC) (env : Env) : Option LC × Option LC :=
  match env.mode with
  | .bc => bcReflThought t
  | .o1 => (none, some (o1ThoughtStr t))

theorem parseActionVlm_eq_map (text : LC) (env : Env) :
    parseActionVlm text env =
      (allActionsOf text env).map
        (perToken env (resolveSRF env) (rtOf (jsTrim text) env).1 (rtOf (jsTrim text) env).2) := rfl

theorem perToken_of_fail (env : Env) (srf : Option (ℚ × ℚ)) (r t : Option LC) (rawStr : LC)
    (h : parseActionE (jsTrimStart (replEscN rawStr)) = none) :
    perToken env srf r t rawStr =
      { reflection := r, thought := thoughtOrEmpty t, action_type := [], action_inputs := [] } := by
  unfold perToken
  dsimp only
  rw [h]

theorem perToken_thought (env : Env) (srf : Option (ℚ × ℚ)) (r t : Option LC) (rawStr : LC) :
    (perToken env srf r t rawStr).thought = thoughtOrEmpty t := by
  unfold perToken
  dsimp only
  cases parseActionE (jsTrimStart (replEscN rawStr)) with
  | none => rfl
  | some v => cases v; rfl

/-- Value stored in `action_inputs` under a key. -/
def lookupInput (e : ParsedActionR) (k : LC) : Option InputVal :=
  (e.action_inputs.find? (fun p => p.1 == k)).map (fun p => p.2)

/-- Arbitrary but fixed stand-ins for the resize constants; the concrete
scenarios below run with `ModelVer.v1_0`, where they are never consulted. -/
def cfgDemo : ResizeCfg := ⟨200, 28, 3136, 2116800, fun _ => 1⟩

/-- Factors (1000, 1000), `bc`, no screen context. -/
def envNoCtx : Env := ⟨(1000, 1000), .bc, none, none, .v1_0, cfgDemo⟩

/-- Factors (1000, 1000), `bc`, screen 1000×800, scale factor 1. -/
def envCtx : Env := ⟨(1000, 1000), .bc, some ⟨1000, 800⟩, some 1, .v1_0, cfgDemo⟩

/-- Factors (1000, 1000), `bc`, screen 1000×800, scale factor unset. -/
def envCtxNoScale : Env := ⟨(1000, 1000), .bc, some ⟨1000, 800⟩, none, .v1_0, cfgDemo⟩

/-- Factors (1000, 1000), `o1`, no screen context. -/
def envO1 : Env := ⟨(1000, 1000), .o1, none, none, .v1_0, cfgDemo⟩

/-- C4: the number of `ParsedAction` entries equals the number of segments
of the action-string split on one-or-more consecutive newlines that are not
whitespace-only; in particular zero such segments yield the empty sequence
rather than an error. -/
theorem parseActionVlm_count (text : LC) (env : Env) :
    (parseActionVlm text env).length =
      ((splitNL (actionStrOf (jsTrim text) env.mode)).filter
        (fun a => ¬ jsTrim a = [])).length := by
  rw [parseActionVlm_eq_map, List.length_map]
  rfl

/-- C5: an action token on which `parseAction` fails (both the grammar path
and the heuristic fallback) produces a `ParsedAction` whose `action_type`
is the empty string and whose `action_inputs` is empty; the remaining
tokens of the same prediction are still all processed (the output has one
entry per token). -/
theorem parseActionVlm_unparsable_token (text : LC) (env : Env) (i : ℕ)
    (hi : i < (allActionsOf text env).length)
    (hfail : parseActionE (jsTrimStart (replEscN (allActionsOf text env)[i])) = none) :
    (parseActionVlm text env).length = (allActionsOf text env).length ∧
    (parseActionVlm text env)[i]?.map (fun e => (e.action_type, e.action_inputs)) =
      some ([], []) := by
  rw [parseActionVlm_eq_map]
  refine ⟨List.length_map _ _, ?_⟩
  rw [List.getElem?_map, List.getElem?_eq_getElem hi, Option.map_some',
    perToken_of_fail _ _ _ _ _ hfail, Option.map_some']

/-- C9: the pipeline is deterministic — two calls of the orchestrator with
the same prediction, factor, screen context, scale factor, mode and model
version (and the same module constants) return identical sequences; the
embedding is a pure function of these inputs, so no hidden state exists. -/
theorem actionParser_deterministic (cfg : ResizeCfg) (p : ActionParserParams) :
    actionParser cfg p = actionParser cfg p := rfl

/-- C6: a box argument `'(100,200)'` with factors (1000, 1000) and no
screen context: even-indexed numbers are divided by the width factor,
odd-indexed by the height factor, a 2-number point is duplicated into a
degenerate 4-tuple, and the value stored for the key is the serialized
`[0.1, 0.2, 0.1, 0.2]`. -/
theorem parseActionVlm_box_normalization :
    (∀ (fac : ℚ × ℚ) (a b : LC),
      normNums .v1_0 none fac [a, b] =
        [(parseFloatStr a).map (fun q => q / fac.1),
         (parseFloatStr b).map (fun q => q / fac.2)]) ∧
    parseActionVlm ("click(start_box='(100,200)')".toList) envNoCtx =
      [{ reflection := none, thought := [], action_type := "click".toList,
         action_inputs :=
           [("start_box".toList,
             .vnums [some (1/10), some (1/5), some (1/10), some (1/5)])] }] := by
  constructor
  · intro fac a b
    rfl
  · with_unfolding_all rfl

/-- C7: with a screen context the absolute pixel coordinate stored under
`start_coords`/`end_coords` is
`round(((x1+x2)/2) * screenWidth * widthFactor) / widthFactor * scaleFactor`
(and the analogue for Y), `scaleFactor` defaulting to 1 when unset; in
particular screen 1000×800, factors (1000, 1000), scale factor 1 and point
`'(500,400)'` store `start_coords = [500, 320]`. -/
theorem parseActionVlm_abs_coords :
    (∀ (x1 y1 x2 y2 : ℚ) (sc : ScreenCtx) (fac : ℚ × ℚ) (scale : Option ℚ),
      computeCoords [some x1, some y1, some x2, some y2] sc fac scale =
        [some (jsRound ((x1 + x2) / 2 * sc.width * fac.1) / fac.1 * scale.getD 1),
         some (jsRound ((y1 + y2) / 2 * sc.height * fac.2) / fac.2 * scale.getD 1)]) ∧
    (parseActionVlm ("click(start_box='(500,400)')".toList) envCtx).map
        (fun e => lookupInput e ("start_coords".toList)) =
      [some (.vcoords [some 500, some 320])] := by
  constructor
  · intro x1 y1 x2 y2 sc fac scale
    rfl
  · with_unfolding_all rfl

/-- C10: in `o1` mode every returned entry's thought is the
template-composed string, never null; when the `<Thought>` pattern or the
`Action_Summary` pattern fails to match, the JS interpolation of `null`
makes the thought contain the literal text `null` — on an input missing
both, the thought is exactly `null\n<Action_Summary>\nnull`. -/
theorem parseActionVlm_o1_thought :
    (∀ (text : LC) (env : Env), env.mode = .o1 →
      ∀ e ∈ parseActionVlm text env, e.thought = o1ThoughtStr (jsTrim text)) ∧
    parseActionVlm ("hello\nAction: click()</Output>".toList) envO1 =
      [{ reflection := none, thought := "null\n<Action_Summary>\nnull".toList,
         action_type := "click".toList, action_inputs := [] }] := by
  constructor
  · intro text env hmode e he
    rw [parseActionVlm_eq_map] at he
    rcases List.mem_map.1 he with ⟨a, _, rfl⟩
    rw [perToken_thought]
    unfold rtOf
    rw [hmode]
    rfl
  · with_unfolding_all rfl

/-- Instance of `parseActionVlm_o1_thought` at the concrete o1 input,
discharging the mode hypothesis and the membership hypothesis. -/
theorem parseActionVlm_o1_thought_witness :
    ({ reflection := none, thought := "null\n<Action_Summary>\nnull".toList,
       action_type := "click".toList, action_inputs := [] } : ParsedActionR).thought =
      o1ThoughtStr (jsTrim ("hello\nAction: click()</Output>".toList)) :=
  parseActionVlm_o1_thought.1 ("hello\nAction: click()</Output>".toList) envO1 rfl _
    (by rw [parseActionVlm_o1_thought.2]; exact List.mem_singleton.mpr rfl)

/-- C8: for a token that does not match the function-call grammar, the
result of `parseAction` carries exactly the first vocabulary word — in
vocabulary order — that occurs in the lower-cased (preprocessed) token, and
is `null` when no vocabulary word occurs. -/
theorem parseAction_heuristic_vocab (s0 : LC)
    (hg : grammarMatch (preprocessTok s0) = none) :
    (parseActionE s0).map (fun r => r.1) =
      commonActions.find? (fun w => occursIn w ((preprocessTok s0).map jsToLowerChar)) := by
  unfold parseActionE
  dsimp only
  rw [hg]
  cases hf : commonActions.find?
      (fun w => occursIn w ((preprocessTok s0).map jsToLowerChar)) with
  | none => rfl
  | some act => rfl

/-- Instance of `parseAction_heuristic_vocab` on the free-text token
`please CLICK here`, discharging the no-grammar-match hypothesis. -/
theorem parseAction_heuristic_vocab_witness :
    (parseActionE ("please CLICK here".toList)).map (fun r => r.1) =
      commonActions.find?
        (fun w => occursIn w ((preprocessTok ("please CLICK here".toList)).map jsToLowerChar)) :=
  parseAction_heuristic_vocab ("please CLICK here".toList) (by decide)

/-- Instance of `parseActionVlm_unparsable_token` at the two-token
prediction where the first token is `???`, discharging both hypotheses. -/
theorem parseActionVlm_unparsable_token_witness :
    (parseActionVlm ("???\nclick()".toList) envNoCtx).length =
      (allActionsOf ("???\nclick()".toList) envNoCtx).length ∧
    (parseActionVlm ("???\nclick()".toList) envNoCtx)[0]?.map
      (fun e => (e.action_type, e.action_inputs)) = some ([], []) :=
  parseActionVlm_unparsable_token ("???\nclick()".toList) envNoCtx 0 (by decide) (by decide)

/-- C1 counterexample: for the box argument `'(abc,200)'` — whose first
fragment parses to `NaN` — with screen context 1000×800 and factors
(1000, 1000), the pipeline stores `start_coords = [NaN, 160]` (the
`lodash.isnumber` guard accepts `NaN`), not the empty array the claim
asserts. -/
theorem parseActionVlm_nan_box_counterexample :
    (parseActionVlm ("click(start_box='(abc,200)')".toList) envCtxNoScale).map
        (fun e => lookupInput e ("start_coords".toList)) =
      [some (.vcoords [none, some 160])] ∧
    ¬ (parseActionVlm ("click(start_box='(abc,200)')".toList) envCtxNoScale).map
        (fun e => lookupInput e ("start_coords".toList)) =
      [some (.vcoords [])] := by
  have h1 : (parseActionVlm ("click(start_box='(abc,200)')".toList) envCtxNoScale).map
      (fun e => lookupInput e ("start_coords".toList)) =
      [some (.vcoords [none, some 160])] := by with_unfolding_all rfl
  refine ⟨h1, fun h2 => ?_⟩
  rw [h1] at h2
  exact absurd h2 (by decide)

/-- C1 amended: the pipeline stores the empty array under
`start_coords`/`end_coords` exactly when fewer than two numbers were parsed
from the box (so the destructuring `[x1, y1, x2 = x1, y2 = y1]` leaves an
`undefined` slot); a fragment that parses to `NaN` passes the
`lodash.isnumber` check (which is true for `NaN`) and yields a coordinate
pair with `NaN` propagated instead of the empty array. -/
theorem computeCoords_empty_iff (fn : List (Option ℚ)) (sc : ScreenCtx)
    (fac : ℚ × ℚ) (scale : Option ℚ) :
    computeCoords fn sc fac scale = [] ↔ fn.length < 2 := by
  match fn with
  | [] => simp [computeCoords]
  | [a] => simp [computeCoords]
  | [a, b] => simp [computeCoords]
  | [a, b, c] => simp [computeCoords]
  | a :: b :: c :: d :: rest => simp [computeCoords]

theorem occursIn_cons (pat : LC) (c : Char) (rest : LC) :
    occursIn pat (c :: rest) = (lPrefix pat (c :: rest) || occursIn pat rest) := rfl

theorem afterLastAM_cons (c : Char) (rest : LC) :
    afterLastAM (c :: rest) =
      (match afterLastAM rest with
       | some t => some t
       | none => markerSplit (c :: rest)) := rfl

theorem markerSplit_cons_nonA {c : Char} (l : LC) (h : ¬ c = 'A') :
    markerSplit (c :: l) = none := by
  have hA : ('A' == c) = false := beq_eq_false_iff_ne.mpr (fun hh => h hh.symm)
  have e1 : lPrefix mkColon (c :: l) = false := by
    show ('A' == c && _) = false
    rw [hA, Bool.false_and]
  have e2 : lPrefix mkFColon (c :: l) = false := by
    show ('A' == c && _) = false
    rw [hA, Bool.false_and]
  simp [markerSplit, e1, e2]

theorem afterLast_cons_nonA {c : Char} (l : LC) (h : ¬ c = 'A') :
    afterLastAM (c :: l) = afterLastAM l := by
  rw [afterLastAM_cons]
  cases afterLastAM l with
  | some t => rfl
  | none => simp [markerSplit_cons_nonA _ h]

theorem markerSplit_cons_mk1 (r : LC) :
    markerSplit ('A' :: 'c' :: 't' :: 'i' :: 'o' :: 'n' :: ':' :: r) = some r := by
  with_unfolding_all rfl

theorem markerSplit_cons_mk2 (r : LC) :
    markerSplit ('A' :: 'c' :: 't' :: 'i' :: 'o' :: 'n' :: '：' :: r) = some r := by
  have e1 : lPrefix mkColon ('A' :: 'c' :: 't' :: 'i' :: 'o' :: 'n' :: '：' :: r) = false := by
    simp [mkColon, lPrefix]
  have e2 : lPrefix mkFColon ('A' :: 'c' :: 't' :: 'i' :: 'o' :: 'n' :: '：' :: r) = true := by
    simp [mkFColon, lPrefix]
  simp [markerSplit, e1, e2]

theorem afterLast_mk1 (r : LC) :
    afterLastAM ('A' :: 'c' :: 't' :: 'i' :: 'o' :: 'n' :: ':' :: r) =
      some ((afterLastAM r).getD r) := by
  have h6 : afterLastAM ('c' :: 't' :: 'i' :: 'o' :: 'n' :: ':' :: r) = afterLastAM r := by
    rw [afterLast_cons_nonA _ (by decide), afterLast_cons_nonA _ (by decide),
        afterLast_cons_nonA _ (by decide), afterLast_cons_nonA _ (by decide),
        afterLast_cons_nonA _ (by decide), afterLast_cons_nonA _ (by decide)]
  rw [afterLastAM_cons, h6]
  cases hA : afterLastAM r with
  | some t => rfl
  | none => rw [markerSplit_cons_mk1]; rfl

theorem afterLast_mk2 (r : LC) :
    afterLastAM ('A' :: 'c' :: 't' :: 'i' :: 'o' :: 'n' :: '：' :: r) =
      some ((afterLastAM r).getD r) := by
  have h6 : afterLastAM ('c' :: 't' :: 'i' :: 'o' :: 'n' :: '：' :: r) = afterLastAM r := by
    rw [afterLast_cons_nonA _ (by decide), afterLast_cons_nonA _ (by decide),
        afterLast_cons_nonA _ (by decide), afterLast_cons_nonA _ (by decide),
        afterLast_cons_nonA _ (by decide), afterLast_cons_nonA _ (by decide)]
  rw [afterLastAM_cons, h6]
  cases hA : afterLastAM r with
  | some t => rfl
  | none => rw [markerSplit_cons_mk2]; rfl

theorem markerSplit_eq {l r : LC} (h : markerSplit l = some r) :
    l = mkColon ++ r ∨ l = mkFColon ++ r := by
  unfold markerSplit at h
  split at h
  · rename_i hp
    rcases lPrefix_iff_prefix.mp hp with ⟨t, ht⟩
    left
    injection h with h'
    rw [← ht, ← h', show (7 : ℕ) = mkColon.length from rfl]
    rw [← ht, List.drop_left]
  · split at h
    · rename_i hp
      rcases lPrefix_iff_prefix.mp hp with ⟨t, ht⟩
      right
      injection h with h'
      rw [← ht, ← h', show (7 : ℕ) = mkFColon.length from rfl]
      rw [← ht, List.drop_left]
    · exact absurd h (by simp)

theorem markerSplit_length {l r : LC} (h : markerSplit l = some r) :
    l.length = r.length + 7 := by
  rcases markerSplit_eq h with rfl | rfl <;> simp [mkColon, mkFColon]

theorem afterLast_of_markerSplit {l r : LC} (h : markerSplit l = some r) :
    afterLastAM l = some ((afterLastAM r).getD r) := by
  rcases markerSplit_eq h with rfl | rfl
  · simp only [mkColon, List.cons_append, List.nil_append]
    exact afterLast_mk1 r
  · simp only [mkFColon, List.cons_append, List.nil_append]
    exact afterLast_mk2 r

theorem splitAMAux_succ (f : ℕ) (acc l : LC) :
    splitAMAux (f + 1) acc l =
      (match markerSplit l with
       | some r => acc.reverse :: splitAMAux f [] r
       | none =>
         match l with
         | [] => [acc.reverse]
         | c :: rest => splitAMAux f (c :: acc) rest) := rfl

theorem splitAMAux_ne_nil (fuel : ℕ) (acc l : LC) : splitAMAux fuel acc l ≠ [] := by
  induction fuel generalizing acc l with
  | zero => simp [splitAMAux]
  | succ f ih =>
    rw [splitAMAux_succ]
    cases hm : markerSplit l with
    | some r => simp [hm]
    | none =>
      cases l with
      | nil => simp [hm]
      | cons c rest => simpa [hm] using ih (c :: acc) rest

theorem getLastD_irrel {xs : List LC} (h : xs ≠ []) (d1 d2 : LC) :
    xs.getLastD d1 = xs.getLastD d2 := by
  cases xs with
  | nil => exact absurd rfl h
  | cons a as => rfl

theorem splitAMAux_getLastD :
    ∀ (fuel : ℕ) (l acc : LC), l.length < fuel →
      (splitAMAux fuel acc l).getLastD [] =
        (match afterLastAM l with
         | some t => t
         | none => acc.reverse ++ l) := by
  intro fuel
  induction fuel with
  | zero => intro l acc h; omega
  | succ f ih =>
    intro l acc h
    rw [splitAMAux_succ]
    cases hm : markerSplit l with
    | some r =>
      have hlen : l.length = r.length + 7 := markerSplit_length hm
      have hr : r.length < f := by omega
      rw [afterLast_of_markerSplit hm]
      have hne := splitAMAux_ne_nil f [] r
      calc (acc.reverse :: splitAMAux f [] r).getLastD []
          = (splitAMAux f [] r).getLastD acc.reverse := List.getLastD_cons _ _ _
        _ = (splitAMAux f [] r).getLastD [] := getLastD_irrel hne _ _
        _ = (match afterLastAM r with
             | some t => t
             | none => List.reverse [] ++ r) := ih r [] hr
        _ = (afterLastAM r).getD r := by
              cases afterLastAM r with
              | some t => rfl
              | none => simp
    | none =>
      cases l with
      | nil => simp [afterLastAM]
      | cons c rest =>
        have hrest : rest.length < f := by
          simp only [List.length_cons] at h
          omega
        rw [ih rest (c :: acc) hrest, afterLastAM_cons, hm]
        cases afterLastAM rest with
        | some t => rfl
        | none => simp

theorem markerSplit_isSome (l : LC) :
    (markerSplit l).isSome = (lPrefix mkColon l || lPrefix mkFColon l) := by
  unfold markerSplit
  cases h1 : lPrefix mkColon l with
  | true => simp [h1]
  | false =>
    cases h2 : lPrefix mkFColon l with
    | true => simp [h1, h2]
    | false => simp [h1, h2]

theorem hasMarker_eq_isSome (l : LC) : hasActionMarker l = (afterLastAM l).isSome := by
  induction l with
  | nil => rfl
  | cons c rest ih =>
    rw [afterLastAM_cons]
    unfold hasActionMarker at ih ⊢
    rw [occursIn_cons, occursIn_cons]
    cases hrest : afterLastAM rest with
    | some t =>
      rw [hrest] at ih
      rcases Bool.or_eq_true_iff.mp ih with h1 | h2
      · simp [h1]
      · simp [h2]
    | none =>
      rw [hrest] at ih
      rcases Bool.or_eq_false_iff.mp ih with ⟨h1, h2⟩
      rw [h1, h2, Bool.or_false, Bool.or_false, markerSplit_isSome]

/-- C2: in `bc` mode, when the (trimmed) text contains neither `Action:`
nor `Action：`, the whole text becomes the action-string; otherwise the
action-string is exactly the substring after the last occurrence of either
marker. -/
theorem bc_action_string (text : LC) :
    (hasActionMarker (jsTrim text) = false →
      actionStrOf (jsTrim text) .bc = jsTrim text) ∧
    (∀ s, afterLastAM (jsTrim text) = some s →
      actionStrOf (jsTrim text) .bc = s) := by
  constructor
  · intro h
    unfold actionStrOf
    rw [h]
    rfl
  · intro s hs
    have hm : hasActionMarker (jsTrim text) = true := by
      rw [hasMarker_eq_isSome, hs]
      rfl
    unfold actionStrOf
    rw [hm]
    simp only [if_true]
    unfold splitAM
    rw [splitAMAux_getLastD ((jsTrim text).length + 1) (jsTrim text) []
      (Nat.lt_succ_self _), hs]

/-- Instance of `bc_action_string` on a marker-free text and on a text with
two markers, discharging both hypotheses. -/
theorem bc_action_string_witness :
    actionStrOf (jsTrim ("no marker here".toList)) .bc = jsTrim ("no marker here".toList) ∧
    actionStrOf (jsTrim ("a Action: b Action：c".toList)) .bc = "c".toList :=
  ⟨(bc_action_string ("no marker here".toList)).1 (by decide),
   (bc_action_string ("a Action: b Action：c".toList)).2 ("c".toList) (by decide)⟩
